import Mathlib

/-!
Shallow embedding of the lead-audit pipeline in `src/app.py` and proofs of the
specified record-quality classification properties.

The script is a pandas/streamlit program.  Its column-wise operations are
modelled as maps over lists of cells; a cell is a string, an integer, or
missing (`NaN`).  The statistical scorer (`sklearn.IsolationForest`) is
external library code and enters the model as an abstract scoring function
over the derived feature rows.
-/

namespace LeadAudit

/-- One pandas cell: a string value, an integer value, or missing (`NaN`). -/
inductive Cell where
  | str (s : String)
  | nat (n : Nat)
  | na
deriving DecidableEq

/-- pandas `Series.astype(str)` applied to one cell.  A missing value (`NaN`)
renders as the string `"nan"`; an integer renders as its decimal string. -/
def Cell.astype_str : Cell → String
  | .str s => s
  | .nat n => toString n
  | .na => "nan"

/-- pandas `Series.fillna(d)` on one cell: replaces a missing value by the
string `d` and leaves every non-missing cell unchanged. -/
def Cell.fillna (d : String) : Cell → Cell
  | .na => .str d
  | c => c

/-- Python `re.sub(r'\D', '', x)`: drop every non-digit character (source line 69).
Digits are modelled as the ASCII digits `0`-`9`. -/
def stripNonDigits (x : String) : String :=
  String.mk (x.data.filter Char.isDigit)

/-- The `Phone_Cleaned` value of one record:
`df['Phone'].astype(str).apply(lambda x: re.sub(r'\D', '', x))` (line 69). -/
def phoneCleaned (c : Cell) : String := stripNonDigits (Cell.astype_str c)

/-- The `name_len` value of one record:
`df['Name'].astype(str).apply(len)` (line 70). -/
def nameLen (c : Cell) : Nat := (Cell.astype_str c).length

/-- The `phone_len` value of one record:
`df['Phone_Cleaned'].apply(len)` (line 71). -/
def phoneLen (c : Cell) : Nat := (phoneCleaned c).length

/-- The suffix of a character list after its last `'@'` (the whole list when
no `'@'` occurs).  This is exactly the last element of the Python
`split('@')` of the list. -/
def afterLastAt (l : List Char) : List Char :=
  (l.reverse.takeWhile (fun c => c != '@')).reverse

/-- Source `df['Email'].astype(str).str.split('@').str[-1]` on one cell: the last
`'@'`-split segment of the string form of the cell (line 74). -/
def splitAtLast (c : Cell) : Cell :=
  Cell.str (String.mk (afterLastAt (Cell.astype_str c).data))

/-- The domain token of one record, source line 74 before encoding:
`astype(str).str.split('@').str[-1].fillna('none')`.  Note `astype(str)` runs
first, so by the time `fillna` runs no cell is missing any more. -/
def domainTok (c : Cell) : String :=
  Cell.astype_str (Cell.fillna "none" (splitAtLast c))

/-- Lexicographic (code-point) order on character lists, as a Boolean. -/
def charListLeB : List Char → List Char → Bool
  | [], _ => true
  | _ :: _, [] => false
  | a :: as, b :: bs => if a = b then charListLeB as bs else decide (a < b)

/-- Lexicographic (code-point) order on strings, matching Python's string
order used by `numpy.unique` inside `LabelEncoder`. -/
def strLeB (a b : String) : Bool := charListLeB a.data b.data

/-- Insert a string into a sorted list of strings. -/
def insertSorted (x : String) : List String → List String
  | [] => [x]
  | y :: ys => if strLeB x y then x :: y :: ys else y :: insertSorted x ys

/-- Insertion sort on strings. -/
def sortStrings : List String → List String
  | [] => []
  | x :: xs => insertSorted x (sortStrings xs)

/-- The distinct values of a list, first occurrences kept, given the values
already seen. -/
def dedupSeen (seen : List String) : List String → List String
  | [] => []
  | x :: xs => if seen.contains x then dedupSeen seen xs else x :: dedupSeen (x :: seen) xs

/-- Like `numpy.unique`: the sorted distinct values of a list of strings. -/
def classesOf (xs : List String) : List String := sortStrings (dedupSeen [] xs)

/-- Index of the first occurrence of a string in a list (list length when
absent; never hit in this development). -/
def idxOf (x : String) : List String → Nat
  | [] => 0
  | y :: ys => if y = x then 0 else idxOf x ys + 1

/-- Model of `sklearn.LabelEncoder().fit_transform(xs)`: each value is replaced by its
index among the sorted distinct values of `xs` (line 73-74). -/
def labelEncode (xs : List String) : List Nat :=
  xs.map (fun x => idxOf x (classesOf xs))

/-- One input record of the validated frame: the `Name`, `Email` and `Phone`
cells of one row. -/
structure Row where
  name : Cell
  email : Cell
  phone : Cell
deriving DecidableEq

def nameCol (df : List Row) : List Cell := df.map Row.name

def emailCol (df : List Row) : List Cell := df.map Row.email

def phoneCol (df : List Row) : List Cell := df.map Row.phone

def nameLenCol (df : List Row) : List Nat := (nameCol df).map nameLen

def phoneLenCol (df : List Row) : List Nat := (phoneCol df).map phoneLen

def domainTokCol (df : List Row) : List String := (emailCol df).map domainTok

/-- Column `df['domain_id'] = le.fit_transform(...)` (lines 73-74). -/
def domainIdCol (df : List Row) : List Nat := labelEncode (domainTokCol df)

/-- One row of `df[['name_len', 'phone_len', 'domain_id']]` (line 77). -/
abbrev Feats := Nat × Nat × Nat

/-- The feature matrix handed to the anomaly model (lines 77-79). -/
def featRows (df : List Row) : List Feats :=
  List.zipWith (fun a bc => (a, bc.1, bc.2)) (nameLenCol df)
    (List.zip (phoneLenCol df) (domainIdCol df))

/-- The blacklist token list of source lines 83 and 88. -/
def blacklist : List String := ["BOT", "TEST", "FAKE"]

/-- Does `p` occur at the head of `l`? -/
def startsWithL : List Char → List Char → Bool
  | _, [] => true
  | [], _ :: _ => false
  | a :: as, b :: bs => a == b && startsWithL as bs

/-- Does `p` occur as a contiguous sublist of `l`?  This is the semantics of
`re.search` for a fixed-word pattern. -/
def hasSubL (p : List Char) : List Char → Bool
  | [] => p.isEmpty
  | a :: t => startsWithL (a :: t) p || hasSubL p t

/-- Source `df['Name'].str.contains('BOT|TEST|FAKE', case=False, na=False)` on one
cell (lines 84 and 89).  The regex alternation of fixed words matches iff some
blacklist token occurs as a substring; `case=False` is modelled by ASCII
upper-casing both sides; a missing or non-string cell yields `NaN`, which
`na=False` turns into `False`. -/
def is_bot (c : Cell) : Bool :=
  match c with
  | .str s => blacklist.any (fun tk => hasSubL (tk.data.map Char.toUpper) (s.data.map Char.toUpper))
  | _ => false

/-- Rule `df['phone_len'] < 10` on one record (lines 85 and 90). -/
def is_bad_phone (c : Cell) : Bool := decide (phoneLen c < 10)

/-- The label the script writes for a good record (line 80). -/
def goodLabel : String := "✅ Good"

/-- The label the script writes for a junk record (line 80). -/
def junkLabel : String := "🚩 Junk/Bot"

/-- Source line 80 label map applied to one score
(line 80): any key other than `1` and `-1` maps to `NaN` (`none`). -/
def mapScore (a : Int) : Option String :=
  if a = 1 then some goodLabel else if a = -1 then some junkLabel else none

/-- Assignment `df.loc[mask, 'Quality_Label'] = v`: overwrite the label of every record
whose mask entry is true (lines 84, 85, 93). -/
def locSet (mask : List Bool) (v : String) (labels : List (Option String)) :
    List (Option String) :=
  List.zipWith (fun m l => if m then some v else l) mask labels

/-- The `is_bot` mask column (lines 84 and 89). -/
def isBotCol (df : List Row) : List Bool := (nameCol df).map is_bot

/-- The `is_bad_phone` mask column (lines 85 and 90). -/
def isBadPhoneCol (df : List Row) : List Bool := (phoneCol df).map is_bad_phone

/-- The second, combined override block:
`df.loc[is_bot | is_bad_phone, 'Quality_Label'] = junk` (line 93). -/
def hardOverride (df : List Row) (labels : List (Option String)) :
    List (Option String) :=
  locSet (List.zipWith (· || ·) (isBotCol df) (isBadPhoneCol df)) junkLabel labels

/-- The `Quality_Label` column right after the statistical step (lines 79-80),
with the fitted model's predictions abstracted as `scorer`. -/
def baseLabels (scorer : List Feats → List Int) (df : List Row) :
    List (Option String) :=
  (scorer (featRows df)).map mapScore

/-- The final `Quality_Label` column (lines 78-93): the statistical base
labels, then the separate blacklist and short-phone overrides (lines 84-85),
then the duplicated combined override (line 93). -/
def qualityLabels (scorer : List Feats → List Int) (df : List Row) :
    List (Option String) :=
  hardOverride df
    (locSet (isBadPhoneCol df) junkLabel
      (locSet (isBotCol df) junkLabel (baseLabels scorer df)))

/-- The rows exported to the `READY_TO_CALL` sheet, each with its label
(line 103): `df[df['Quality_Label'] == '✅ Good']`. -/
def goodSheet (scorer : List Feats → List Int) (df : List Row) :
    List (Row × Option String) :=
  (df.zip (qualityLabels scorer df)).filter (fun p => p.2 == some goodLabel)

/-- The rows exported to the `REVIEW_REQUIRED` sheet, each with its label
(line 104): `df[df['Quality_Label'] == '🚩 Junk/Bot']`. -/
def junkSheet (scorer : List Feats → List Int) (df : List Row) :
    List (Row × Option String) :=
  (df.zip (qualityLabels scorer df)).filter (fun p => p.2 == some junkLabel)

/-- A raw uploaded frame: named columns of cells, as loaded on lines 38/62-64
before any validation. -/
structure Table where
  cols : List (String × List Cell)
deriving DecidableEq

/-- Column access `df[c]`; yields `none` when pandas would raise `KeyError`. -/
def Table.lookup (t : Table) (c : String) : Option (List Cell) :=
  (t.cols.find? (fun p => p.1 == c)).map (fun p => p.2)

/-- Test `c in df.columns`. -/
def Table.hasCol (t : Table) (c : String) : Bool :=
  (t.cols.map Prod.fst).contains c

/-- Assignment `df[c] = v` for a fresh derived column: appended on the right. -/
def Table.addCol (t : Table) (c : String) (v : List Cell) : Table :=
  ⟨t.cols ++ [(c, v)]⟩

/-- The required-column list of line 41. -/
def requiredCols : List String := ["Name", "Email", "Phone"]

/-- Outcome of the processing block: either the final label column, or an
uncaught `KeyError` on a column access, carrying the frame as it stood (with
the derived columns already added) when the access failed. -/
inductive RunResult where
  | ok (labels : List (Option String))
  | keyError (col : String) (dfSoFar : Table)
deriving DecidableEq

/-- Reassemble validated rows from the three raw columns. -/
def toRows (names emails phones : List Cell) : List Row :=
  List.zipWith (fun n ep => Row.mk n ep.1 ep.2) names (List.zip emails phones)

/-- The second pipeline block, lines 59-104: cleaning, scoring and overrides,
with NO schema validation.  Column accesses happen in source order: `Phone`
(line 69), `Name` (line 70), `Email` (line 74); the first missing one aborts
the script with a `KeyError`. -/
def runBlock2 (scorer : List Feats → List Int) (t : Table) : RunResult :=
  match t.lookup "Phone" with
  | none => .keyError "Phone" t
  | some phones =>
    let t1 := t.addCol "Phone_Cleaned" (phones.map (fun c => Cell.str (phoneCleaned c)))
    match t1.lookup "Name" with
    | none => .keyError "Name" t1
    | some names =>
      let t2 := t1.addCol "name_len" (names.map (fun c => Cell.nat (nameLen c)))
      let t3 := t2.addCol "phone_len" (phones.map (fun c => Cell.nat (phoneLen c)))
      match t3.lookup "Email" with
      | none => .keyError "Email" t3
      | some emails =>
        .ok (qualityLabels scorer (toRows names emails phones))

/-- Observable outcome of one full script run. -/
inductive ScriptResult where
  | schemaErrorReport (missing : List String)
  | ran (r : RunResult)
  | idle
deriving DecidableEq

/-- The whole script, top to bottom.  `u1` is the file given to the FIRST
uploader (line 34), whose block (lines 36-48) validates the columns and calls
`st.stop()` on failure; its success path holds no processing code.  `u2` is
the file given to the SECOND uploader (line 57), whose block (lines 59-104)
does the real processing with no validation at all. -/
def script (scorer : List Feats → List Int) (u1 u2 : Option Table) : ScriptResult :=
  match u1 with
  | some t1 =>
    let missing := requiredCols.filter (fun c => !(t1.hasCol c))
    if missing.isEmpty then
      match u2 with
      | some t2 => .ran (runBlock2 scorer t2)
      | none => .idle
    else .schemaErrorReport missing
  | none =>
    match u2 with
    | some t2 => .ran (runBlock2 scorer t2)
    | none => .idle

/-- Modelled from the spec: `IsolationForest(...).fit_predict` is sklearn
library code whose sources are not part of this repository.  §4.3 of the spec
fixes only its contract — deterministic given the fixed seed, one flag per
record — and, for a degenerate batch (a single record, or all feature rows
identical), a fallback that treats every record as a non-outlier instead of
failing.  A batch is degenerate when it has at most one row or all rows
equal. -/
def degenerateBatch (rows : List Feats) : Bool :=
  decide (rows.length ≤ 1) || rows.all (fun r => r == rows.headD (0, 0, 0))

/-- Modelled from the spec: the anomaly scorer.  On a degenerate batch it
falls back to all non-outliers (`+1`); otherwise it defers to an abstract
batch-relative scoring function `general`. -/
def fitPredictIF (general : List Feats → List Int) (rows : List Feats) : List Int :=
  if degenerateBatch rows then rows.map (fun _ => 1) else general rows

/-! ### Helper lemmas -/

theorem startsWithL_iff (l p : List Char) :
    startsWithL l p = true ↔ ∃ r, l = p ++ r := by
  induction p generalizing l with
  | nil => simp [startsWithL]
  | cons b bs ih =>
    cases l with
    | nil => simp [startsWithL]
    | cons a as =>
      simp only [startsWithL, Bool.and_eq_true, beq_iff_eq, ih, List.cons_append]
      constructor
      · rintro ⟨rfl, r, rfl⟩; exact ⟨r, rfl⟩
      · rintro ⟨r, h⟩
        injection h with h1 h2
        exact ⟨h1, r, h2⟩

theorem hasSubL_iff (p l : List Char) :
    hasSubL p l = true ↔ ∃ pre suf, l = pre ++ p ++ suf := by
  induction l with
  | nil =>
    simp only [hasSubL, List.isEmpty_iff]
    constructor
    · rintro rfl; exact ⟨[], [], rfl⟩
    · rintro ⟨pre, suf, h⟩
      rcases List.append_eq_nil.mp h.symm with ⟨h1, -⟩
      exact (List.append_eq_nil.mp h1).2
  | cons a t ih =>
    simp only [hasSubL, Bool.or_eq_true, startsWithL_iff, ih]
    constructor
    · rintro (⟨r, hr⟩ | ⟨pre, suf, hps⟩)
      · exact ⟨[], r, by simpa using hr⟩
      · exact ⟨a :: pre, suf, by simp [hps]⟩
    · rintro ⟨pre, suf, hps⟩
      cases pre with
      | nil => exact Or.inl ⟨suf, by simpa using hps⟩
      | cons c cs =>
        injection hps with h1 h2
        exact Or.inr ⟨cs, suf, h2⟩

theorem dropWhile_at_head (l : List Char) (h : '@' ∈ l) :
    ∃ d, l.dropWhile (fun c => c != '@') = '@' :: d := by
  induction l with
  | nil => cases h
  | cons a t ih =>
    by_cases ha : a = '@'
    · subst ha
      exact ⟨t, by simp [List.dropWhile_cons]⟩
    · have hmem : '@' ∈ t := by
        rcases List.mem_cons.mp h with h1 | h1
        · exact absurd h1.symm ha
        · exact h1
      obtain ⟨d, hd⟩ := ih hmem
      exact ⟨d, by simp [List.dropWhile_cons, ha, hd]⟩

theorem afterLastAt_decomp (l : List Char) (h : '@' ∈ l) :
    (∃ pre, l = pre ++ '@' :: afterLastAt l) ∧ '@' ∉ afterLastAt l := by
  have hrev : '@' ∈ l.reverse := List.mem_reverse.mpr h
  obtain ⟨d, hd⟩ := dropWhile_at_head l.reverse hrev
  constructor
  · refine ⟨d.reverse, ?_⟩
    calc l = l.reverse.reverse := (List.reverse_reverse l).symm
    _ = ((l.reverse.takeWhile (fun c => c != '@')) ++
          (l.reverse.dropWhile (fun c => c != '@'))).reverse := by
        rw [List.takeWhile_append_dropWhile]
    _ = (l.reverse.dropWhile (fun c => c != '@')).reverse ++ afterLastAt l := by
        rw [List.reverse_append]; rfl
    _ = ('@' :: d).reverse ++ afterLastAt l := by rw [hd]
    _ = d.reverse ++ '@' :: afterLastAt l := by simp
  · intro hmem
    have h1 : ('@' : Char) ∈ l.reverse.takeWhile (fun c => c != '@') := by
      simpa [afterLastAt, List.mem_reverse] using hmem
    have h2 := List.mem_takeWhile_imp h1
    simp at h2

theorem afterLastAt_of_no_at (l : List Char) (h : '@' ∉ l) : afterLastAt l = l := by
  have h1 : l.reverse.takeWhile (fun c => c != '@') = l.reverse := by
    rw [List.takeWhile_eq_self_iff]
    intro x hx
    have : x ∈ l := List.mem_reverse.mp hx
    simp only [bne_iff_ne, ne_eq]
    intro heq
    exact h (heq ▸ this)
  rw [afterLastAt, h1, List.reverse_reverse]

theorem mem_zipWith_ex {α β γ : Type} {f : α → β → γ} {l₁ : List α} {l₂ : List β} {x : γ}
    (h : x ∈ List.zipWith f l₁ l₂) : ∃ a ∈ l₁, ∃ b ∈ l₂, x = f a b := by
  induction l₁ generalizing l₂ with
  | nil => simp at h
  | cons a as ih =>
    cases l₂ with
    | nil => simp at h
    | cons b bs =>
      rw [List.zipWith_cons_cons] at h
      rcases List.mem_cons.mp h with h1 | h1
      · exact ⟨a, by simp, b, by simp, h1⟩
      · obtain ⟨a', ha', b', hb', hx⟩ := ih h1
        exact ⟨a', by simp [ha'], b', by simp [hb'], hx⟩

theorem locSet_mem {mask : List Bool} {v : String} {labels : List (Option String)}
    {x : Option String} (h : x ∈ locSet mask v labels) : x = some v ∨ x ∈ labels := by
  obtain ⟨m, -, l, hl, hx⟩ := mem_zipWith_ex h
  cases m
  · right; rw [hx]; simpa using hl
  · left; rw [hx]; simp

theorem locSet_getElem? (mask : List Bool) (v : String) (labels : List (Option String))
    (i : Nat) :
    (locSet mask v labels)[i]? =
      match mask[i]?, labels[i]? with
      | some m, some l => some (if m then some v else l)
      | _, _ => none := by
  simp only [locSet]
  rw [List.getElem?_zipWith]
  rcases mask[i]? with _ | m <;> rcases labels[i]? with _ | l <;> rfl

theorem qualityLabels_mem (scorer : List Feats → List Int) (df : List Row)
    (hpm : ∀ a ∈ scorer (featRows df), a = 1 ∨ a = -1) :
    ∀ x ∈ qualityLabels scorer df, x = some goodLabel ∨ x = some junkLabel := by
  intro x hx
  rcases locSet_mem hx with h | h
  · exact Or.inr h
  rcases locSet_mem h with h | h
  · exact Or.inr h
  rcases locSet_mem h with h | h
  · exact Or.inr h
  obtain ⟨a, ha, hax⟩ := List.mem_map.mp h
  rcases hpm a ha with h1 | h1 <;> rw [← hax, h1]
  · exact Or.inl rfl
  · exact Or.inr rfl

theorem qualityLabels_getElem? (scorer : List Feats → List Int) (df : List Row) (i : Nat)
    (r : Row) (a : Int) (hr : df[i]? = some r) (ha : (scorer (featRows df))[i]? = some a) :
    (qualityLabels scorer df)[i]? =
      some (if is_bot r.name || is_bad_phone r.phone then some junkLabel else mapScore a) := by
  have hbot : (isBotCol df)[i]? = some (is_bot r.name) := by
    simp [isBotCol, nameCol, List.getElem?_map, hr]
  have hbad : (isBadPhoneCol df)[i]? = some (is_bad_phone r.phone) := by
    simp [isBadPhoneCol, phoneCol, List.getElem?_map, hr]
  have hbase : (baseLabels scorer df)[i]? = some (mapScore a) := by
    simp [baseLabels, List.getElem?_map, ha]
  have hor : (List.zipWith (· || ·) (isBotCol df) (isBadPhoneCol df))[i]? =
      some (is_bot r.name || is_bad_phone r.phone) := by
    simp [List.getElem?_zipWith, hbot, hbad]
  rw [qualityLabels, hardOverride]
  simp only [locSet_getElem?, hor, hbad, hbot, hbase]
  cases hb : is_bot r.name <;> cases hp : is_bad_phone r.phone <;> simp

theorem qualityLabels_length (scorer : List Feats → List Int) (df : List Row)
    (hlen : (scorer (featRows df)).length = df.length) :
    (qualityLabels scorer df).length = df.length := by
  simp only [qualityLabels, hardOverride, locSet, baseLabels, isBotCol, isBadPhoneCol,
    nameCol, phoneCol, List.length_zipWith, List.length_map, hlen]
  omega

theorem locSet_locSet_self (mask : List Bool) (v : String) (l : List (Option String)) :
    locSet mask v (locSet mask v l) = locSet mask v l := by
  induction mask generalizing l with
  | nil => rfl
  | cons m ms ih =>
    cases l with
    | nil => rfl
    | cons x xs =>
      simp only [locSet, List.zipWith_cons_cons] at ih ⊢
      cases m <;> simp [ih]

theorem locSet_or_absorb (m₁ m₂ : List Bool) (v : String) (l : List (Option String)) :
    locSet (List.zipWith (· || ·) m₁ m₂) v (locSet m₂ v (locSet m₁ v l)) =
    locSet (List.zipWith (· || ·) m₁ m₂) v l := by
  induction m₁ generalizing m₂ l with
  | nil => rfl
  | cons a as ih =>
    cases m₂ with
    | nil => rfl
    | cons b bs =>
      cases l with
      | nil => rfl
      | cons x xs =>
        simp only [locSet, List.zipWith_cons_cons] at ih ⊢
        cases a <;> cases b <;> simp [ih]

/-! ### Demonstration inputs -/

/-- A scorer that flags no record as an outlier (every prediction `+1`). -/
def demoScorerOnes : List Feats → List Int := fun rows => rows.map (fun _ => 1)

/-- A scorer that flags every record as an outlier (every prediction `-1`). -/
def demoScorerNegOnes : List Feats → List Int := fun rows => rows.map (fun _ => -1)

/-- The second row of the bundled sample template. -/
def demoRowBot : Row :=
  Row.mk (Cell.str "ALACHUA_BOT") (Cell.str "bot@test.ru") (Cell.str "0000000000")

/-- The first row of the bundled sample template. -/
def demoRowJane : Row :=
  Row.mk (Cell.str "Jane Smith") (Cell.str "jane@gmail.com") (Cell.str "352-555-0199")

/-- A clean-name record with the all-zero ten-digit phone number. -/
def demoRowZeroPhone : Row :=
  Row.mk (Cell.str "Jane Smith") (Cell.str "jane@gmail.com") (Cell.str "0000000000")

/-- A one-record frame whose cells are all missing. -/
def demoRowAllNa : List Row := [Row.mk Cell.na Cell.na Cell.na]

/-- An uploaded frame with the `Email` column absent. -/
def demoTableNoEmail : Table :=
  ⟨[("Name", [Cell.str "Jane Smith"]), ("Phone", [Cell.str "352-555-0199"])]⟩

/-- The frame `demoTableNoEmail` as it stands when line 74 raises `KeyError`:
the phone and name feature columns have already been computed and attached. -/
def demoTableNoEmailCrashed : Table :=
  ⟨[("Name", [Cell.str "Jane Smith"]), ("Phone", [Cell.str "352-555-0199"]),
    ("Phone_Cleaned", [Cell.str "3525550199"]), ("name_len", [Cell.nat 10]),
    ("phone_len", [Cell.nat 10])]⟩

/-! ### Claim theorems -/

/-- Claim C1: for every record of a processed batch, the final label is Junk
iff at least one of is_blacklisted (`is_bot`), is_short_phone
(`is_bad_phone`), is_statistical_outlier (prediction `-1`) holds, and Good
exactly when all three are false; moreover the override is monotonic — a
record the statistical step labelled Junk stays Junk. -/
theorem final_label_iff_flags (scorer : List Feats → List Int) (df : List Row) (i : Nat)
    (r : Row) (a : Int) (hr : df[i]? = some r) (ha : (scorer (featRows df))[i]? = some a)
    (hpm : a = 1 ∨ a = -1) :
    ((qualityLabels scorer df)[i]? = some (some junkLabel) ↔
      (is_bot r.name = true ∨ is_bad_phone r.phone = true ∨ a = -1))
    ∧ ((qualityLabels scorer df)[i]? = some (some goodLabel) ↔
      (is_bot r.name = false ∧ is_bad_phone r.phone = false ∧ a ≠ -1))
    ∧ (mapScore a = some junkLabel → (qualityLabels scorer df)[i]? = some (some junkLabel)) := by
  have h := qualityLabels_getElem? scorer df i r a hr ha
  rw [h]
  rcases hpm with h1 | h1 <;> subst h1 <;>
    cases hb : is_bot r.name <;> cases hp : is_bad_phone r.phone <;>
      simp [mapScore, goodLabel, junkLabel]

/-- Witness for C1: in the sample batch, the blacklisted bot row is labelled
Junk even though the scorer flags nothing. -/
theorem final_label_iff_flags_witness :
    (qualityLabels demoScorerOnes [demoRowBot])[0]? = some (some junkLabel) :=
  (final_label_iff_flags demoScorerOnes [demoRowBot] 0 demoRowBot 1 (by decide)
    (by decide) (Or.inl rfl)).1.mpr (Or.inl (by decide))

/-- Claim C2 (code bug): a table missing the `Email` column, fed to the
second (unvalidated) uploader block, is NOT rejected with the missing-column
report: the phone and name features are extracted first and the run then dies
with an uncaught `KeyError` on `Email`.  Only the first uploader block (dead
code for processing purposes) would have produced the report, shown by the
last conjunct. -/
theorem missing_column_unvalidated_crash (scorer : List Feats → List Int) :
    script scorer none (some demoTableNoEmail) =
      ScriptResult.ran (RunResult.keyError "Email" demoTableNoEmailCrashed)
    ∧ demoTableNoEmailCrashed.lookup "Phone_Cleaned" = some [Cell.str "3525550199"]
    ∧ (∀ ms : List String,
        script scorer none (some demoTableNoEmail) ≠ ScriptResult.schemaErrorReport ms)
    ∧ (∀ u2 : Option Table,
        script scorer (some demoTableNoEmail) u2 = ScriptResult.schemaErrorReport ["Email"]) := by
  have h1 : script scorer none (some demoTableNoEmail) =
      ScriptResult.ran (RunResult.keyError "Email" demoTableNoEmailCrashed) := rfl
  refine ⟨h1, by decide, fun ms h => ?_, fun u2 => rfl⟩
  rw [h1] at h
  exact ScriptResult.noConfusion h

/-- Claim C3 counterexample: an email with no `'@'` keeps its own text as the
domain token, and a missing email gets `"nan"`; neither maps to `"none"`. -/
theorem email_domain_none_cex :
    domainTok (Cell.str "plainaddress") = "plainaddress"
    ∧ domainTok (Cell.str "plainaddress") ≠ "none"
    ∧ domainTok Cell.na = "nan"
    ∧ domainTok Cell.na ≠ "none" := by decide

/-- Claim C3 as amended: the domain token is the substring after the LAST
`'@'` when the (string-coerced) email contains one; an email with no `'@'`
keeps its whole coerced text (a missing email coerces to `"nan"`), not
`"none"`; and within one run `labelEncode` gives identical domain strings
identical integer codes. -/
theorem email_domain_encoding :
    (∀ s : String, '@' ∈ s.data →
      (∃ pre, s.data = pre ++ '@' :: (domainTok (Cell.str s)).data)
        ∧ '@' ∉ (domainTok (Cell.str s)).data)
    ∧ (∀ s : String, '@' ∉ s.data → domainTok (Cell.str s) = s)
    ∧ domainTok Cell.na = "nan"
    ∧ (∀ (xs : List String) (v : String) (i j : Nat),
        xs[i]? = some v → xs[j]? = some v →
        (labelEncode xs)[i]? = (labelEncode xs)[j]?)
    ∧ domainTok (Cell.str "bot@test.ru") = "test.ru" := by
  have hdata : ∀ s : String, (domainTok (Cell.str s)).data = afterLastAt s.data :=
    fun s => rfl
  refine ⟨fun s hs => ?_, fun s hs => ?_, rfl, fun xs v i j hi hj => ?_, by decide⟩
  · obtain ⟨⟨pre, hpre⟩, hno⟩ := afterLastAt_decomp s.data hs
    exact ⟨⟨pre, by rw [hdata s]; exact hpre⟩, by rw [hdata s]; exact hno⟩
  · apply String.ext
    rw [hdata s]
    exact afterLastAt_of_no_at s.data hs
  · simp [labelEncode, List.getElem?_map, hi, hj]

/-- Witness for C3 (amended): the sample email `bot@test.ru` decomposes
around its last `'@'` with an at-free domain token. -/
theorem email_domain_encoding_witness :
    (∃ pre, "bot@test.ru".data = pre ++ '@' :: (domainTok (Cell.str "bot@test.ru")).data)
    ∧ '@' ∉ (domainTok (Cell.str "bot@test.ru")).data :=
  email_domain_encoding.1 "bot@test.ru" (by decide)

/-- Claim C4 counterexample: a missing name does NOT give `name_len = 0` —
`astype(str)` renders `NaN` as the three-character string `"nan"`. -/
theorem missing_name_length_cex : ¬ nameLen Cell.na = 0 := by decide

/-- Claim C4 as amended: the extractor is total (it is a Lean function on
every `Cell`, missing and non-string cells included); a missing or empty
phone gives `Phone_Cleaned = ""` and `phone_len = 0`; an EMPTY name gives
`name_len = 0`, but a MISSING name is coerced to `"nan"` and gives
`name_len = 3`; a non-string cell is coerced to its string form first. -/
theorem feature_fallback_values :
    phoneCleaned Cell.na = "" ∧ phoneLen Cell.na = 0
    ∧ phoneCleaned (Cell.str "") = "" ∧ phoneLen (Cell.str "") = 0
    ∧ nameLen (Cell.str "") = 0
    ∧ nameLen Cell.na = 3
    ∧ nameLen (Cell.nat 42) = 2 := by decide

/-- Claim C5: `is_bot` holds iff the name, upper-cased, contains some
blacklist token (`"BOT"`, `"TEST"`, `"FAKE"`) as a contiguous substring; a
missing name never matches; and the three documented examples behave as
specified. -/
theorem is_blacklisted_iff_substring :
    (∀ s : String, is_bot (Cell.str s) = true ↔
      ∃ tk ∈ blacklist, ∃ pre suf,
        s.data.map Char.toUpper = pre ++ tk.data.map Char.toUpper ++ suf)
    ∧ is_bot Cell.na = false
    ∧ is_bot (Cell.str "alachua_bot") = true
    ∧ is_bot (Cell.str "Robert Testament") = true
    ∧ is_bot (Cell.str "Jane Smith") = false := by
  refine ⟨fun s => ?_, rfl, by decide, by decide, by decide⟩
  simp only [is_bot, List.any_eq_true, hasSubL_iff]

/-- Claim C6: `is_bad_phone` holds iff the count of (ASCII) digit characters
in the string-coerced phone is strictly below 10; `"352-555-0199"` cleans to
the ten-digit `"3525550199"` and is not short; `"0000000000"` also passes the
length rule, and with a clean name and a non-outlier score such a record is
labelled Good — only the blacklist or the statistical flag could junk it. -/
theorem is_short_phone_iff_digits :
    (∀ s : String, is_bad_phone (Cell.str s) = true ↔ s.data.countP Char.isDigit < 10)
    ∧ phoneCleaned (Cell.str "352-555-0199") = "3525550199"
    ∧ is_bad_phone (Cell.str "352-555-0199") = false
    ∧ is_bad_phone (Cell.str "0000000000") = false
    ∧ (∀ scorer : List Feats → List Int,
        scorer (featRows [demoRowZeroPhone]) = [1] →
        qualityLabels scorer [demoRowZeroPhone] = [some goodLabel]) := by
  refine ⟨fun s => ?_, by decide, by decide, by decide, fun scorer h => ?_⟩
  · simp [is_bad_phone, phoneLen, phoneCleaned, stripNonDigits, Cell.astype_str,
      String.length, List.countP_eq_length_filter]
  · simp only [qualityLabels, baseLabels, h]
    decide

/-- Witness for C6: with a no-outlier scorer, the all-zero-phone record is
labelled Good. -/
theorem is_short_phone_iff_digits_witness :
    qualityLabels demoScorerOnes [demoRowZeroPhone] = [some goodLabel] :=
  is_short_phone_iff_digits.2.2.2.2 demoScorerOnes (by decide)

/-- Claim C7: the Good and Junk sheets are a strict bipartition of the
labelled batch — their concatenation is a permutation of the labelled rows
(no duplicates, no omissions) and their sizes add up to the batch size. -/
theorem partition_bipartition (scorer : List Feats → List Int) (df : List Row)
    (hlen : (scorer (featRows df)).length = df.length)
    (hpm : ∀ a ∈ scorer (featRows df), a = 1 ∨ a = -1) :
    List.Perm (goodSheet scorer df ++ junkSheet scorer df)
      (df.zip (qualityLabels scorer df))
    ∧ (goodSheet scorer df).length + (junkSheet scorer df).length = df.length := by
  have hmem : ∀ p ∈ df.zip (qualityLabels scorer df),
      (p.2 == some junkLabel) = !(p.2 == some goodLabel) := by
    intro p hp
    have h2 := (List.of_mem_zip hp).2
    rcases qualityLabels_mem scorer df hpm p.2 h2 with h | h <;> rw [h] <;> decide
  have hjunk : junkSheet scorer df =
      (df.zip (qualityLabels scorer df)).filter (fun p => !(p.2 == some goodLabel)) :=
    List.filter_congr hmem
  have hperm : List.Perm (goodSheet scorer df ++ junkSheet scorer df)
      (df.zip (qualityLabels scorer df)) := by
    rw [goodSheet, hjunk]
    exact List.filter_append_perm _ _
  refine ⟨hperm, ?_⟩
  have hl := hperm.length_eq
  rw [List.length_append, List.length_zip,
    qualityLabels_length scorer df hlen] at hl
  omega

/-- Witness for C7 on the two-row sample batch with a no-outlier scorer. -/
theorem partition_bipartition_witness :
    (goodSheet demoScorerOnes [demoRowJane, demoRowBot]).length
      + (junkSheet demoScorerOnes [demoRowJane, demoRowBot]).length = 2 :=
  (partition_bipartition demoScorerOnes [demoRowJane, demoRowBot] (by decide)
    (by decide)).2

/-- Claim C8: two runs on identical input rows with the identical (seeded,
hence deterministic) scorer produce identical final labels and identical
sheets — the pipeline keeps no other state. -/
theorem determinism_two_runs (scorer₁ scorer₂ : List Feats → List Int)
    (df₁ df₂ : List Row) (hs : scorer₁ = scorer₂) (hdf : df₁ = df₂) :
    qualityLabels scorer₁ df₁ = qualityLabels scorer₂ df₂
    ∧ goodSheet scorer₁ df₁ = goodSheet scorer₂ df₂
    ∧ junkSheet scorer₁ df₁ = junkSheet scorer₂ df₂ := by
  subst hs; subst hdf
  exact ⟨rfl, rfl, rfl⟩

/-- Witness for C8 at the sample batch. -/
theorem determinism_two_runs_witness :
    qualityLabels demoScorerOnes [demoRowJane, demoRowBot] =
      qualityLabels demoScorerOnes [demoRowJane, demoRowBot] :=
  (determinism_two_runs demoScorerOnes demoScorerOnes [demoRowJane, demoRowBot]
    [demoRowJane, demoRowBot] rfl rfl).1

/-- Claim C9 (scorer modelled from the spec, §4.3): on a degenerate batch —
a single record, or all feature rows identical — the anomaly step yields one
binary flag per record via the defined all-non-outlier fallback, and the
whole pipeline completes with one label per record. -/
theorem degenerate_batch_fallback (general : List Feats → List Int) (df : List Row)
    (hdeg : degenerateBatch (featRows df) = true) :
    (fitPredictIF general (featRows df)).length = df.length
    ∧ (∀ a ∈ fitPredictIF general (featRows df), a = 1 ∨ a = -1)
    ∧ (qualityLabels (fitPredictIF general) df).length = df.length := by
  have h1 : fitPredictIF general (featRows df) = (featRows df).map (fun _ => 1) := by
    rw [fitPredictIF, hdeg]
    rfl
  have hfl : (featRows df).length = df.length := by
    simp only [featRows, nameLenCol, phoneLenCol, domainIdCol, domainTokCol, labelEncode,
      nameCol, phoneCol, emailCol, List.length_zipWith, List.length_zip, List.length_map]
    omega
  refine ⟨?_, ?_, ?_⟩
  · rw [h1, List.length_map]; exact hfl
  · intro a ha
    rw [h1] at ha
    rcases List.mem_map.mp ha with ⟨x, -, hx⟩
    exact Or.inl hx.symm
  · exact qualityLabels_length _ df (by rw [h1, List.length_map]; exact hfl)

/-- Witness for C9: a single all-missing record is a degenerate batch and
still gets exactly one flag and one label. -/
theorem degenerate_batch_fallback_witness :
    (fitPredictIF demoScorerNegOnes (featRows demoRowAllNa)).length = demoRowAllNa.length
    ∧ (∀ a ∈ fitPredictIF demoScorerNegOnes (featRows demoRowAllNa), a = 1 ∨ a = -1)
    ∧ (qualityLabels (fitPredictIF demoScorerNegOnes) demoRowAllNa).length
        = demoRowAllNa.length :=
  degenerate_batch_fallback demoScorerNegOnes demoRowAllNa (by decide)

/-- Claim C10: the hard-rule override stage is idempotent — re-applying the
combined blacklist/short-phone override (line 93) to the already-overridden
label column changes nothing, and the code's three override writes give
exactly the labels of a single combined application. -/
theorem override_idempotent (scorer : List Feats → List Int) (df : List Row) :
    hardOverride df (qualityLabels scorer df) = qualityLabels scorer df
    ∧ qualityLabels scorer df = hardOverride df (baseLabels scorer df) := by
  constructor
  · simp only [qualityLabels, hardOverride]
    exact locSet_locSet_self _ _ _
  · simp only [qualityLabels, hardOverride]
    exact locSet_or_absorb _ _ _ _

end LeadAudit
